import Mathlib

set_option maxHeartbeats 1600000
set_option maxRecDepth 16384

/-!
Shallow embedding of the Flip 7 simulator (`flip7_simulation.py`).

Randomness (`random.shuffle`) is modelled by an explicit `shuffle` function
passed to the operations that shuffle; theorems quantify over any `shuffle`
that permutes its input.  Python lists are Lean `List`s; `list.pop()` removes
the last element.  Card `id` strings are unique labels generated at build time
and never read by any game logic (`repr` aside), so they are omitted from the
card model; the Python `Card` dataclass populates exactly the payload fields
of its `card_type` (see `create_deck` and the emergency deck), which the
inductive below captures.
-/

inductive CardType where
  | number
  | action
  | modifier
deriving DecidableEq, Repr

inductive ActionType where
  | freeze
  | flipThree
  | secondChance
deriving DecidableEq, Repr

inductive ModifierType where
  | add
  | multiply
deriving DecidableEq, Repr

inductive Card where
  | number (value : Nat)
  | action (action_type : ActionType)
  | modifier (modifier_type : ModifierType) (modifier_value : Nat)
deriving DecidableEq, Repr

def Card.card_type : Card → CardType
  | .number _ => .number
  | .action _ => .action
  | .modifier _ _ => .modifier

structure Player where
  id : String
  name : String
  cards : List Card
  score : Int
  round_score : Int
  is_active : Bool
  has_busted : Bool
  has_second_chance : Bool
  has_flip_three_active : Bool
  frozen_by : Option String
deriving DecidableEq, Repr

def Player.get_number_cards (p : Player) : List Card :=
  p.cards.filter fun c => c.card_type == CardType.number

def Player.get_modifier_cards (p : Player) : List Card :=
  p.cards.filter fun c => c.card_type == CardType.modifier

def Player.get_action_cards (p : Player) : List Card :=
  p.cards.filter fun c => c.card_type == CardType.action

def Player.get_number_values (p : Player) : List Nat :=
  p.get_number_cards.filterMap fun c =>
    match c with
    | .number v => some v
    | _ => none

def Player.calculate_score (p : Player) (is_flip7 : Bool) : Int :=
  let total : Int := (p.get_number_values.sum : Nat)
  let total : Int := p.get_modifier_cards.foldl
    (fun t c =>
      match c with
      | Card.modifier ModifierType.multiply v => t * (v : Int)
      | _ => t) total
  let total : Int := p.get_modifier_cards.foldl
    (fun t c =>
      match c with
      | Card.modifier ModifierType.add v => t + (v : Int)
      | _ => t) total
  if is_flip7 then total + 15 else total

def Player.has_flip7 (p : Player) : Bool :=
  p.get_number_values.dedup.length == 7

def Player.would_bust (p : Player) (new_card : Card) : Bool :=
  match new_card with
  | .number v => p.get_number_values.contains v
  | _ => false

def create_deck (shuffle : List Card → List Card) (num_players : Nat) : List Card :=
  let num_decks := max 2 ((num_players + 2) / 3)
  let deck := (List.range num_decks).flatMap fun _ =>
    ((List.range 13).flatMap fun value =>
      List.replicate (if value > 0 then value else 1) (Card.number value))
    ++ ([2, 4, 6, 8, 10].flatMap fun mod_value =>
      List.replicate 3 (Card.modifier ModifierType.add mod_value))
    ++ [Card.modifier ModifierType.multiply 2]
    ++ ([ActionType.freeze, ActionType.flipThree, ActionType.secondChance].flatMap fun a =>
      List.replicate 3 (Card.action a))
  shuffle deck

structure GameState where
  players : List Player
  deck : List Card
  discard_pile : List Card
  current_player_idx : Nat
  dealer_idx : Nat
  round_number : Nat
  game_over : Bool
  winner : Option Player
deriving DecidableEq, Repr

def GameState.get_active_players (gs : GameState) : List Player :=
  gs.players.filter fun p => p.is_active

def GameState.next_player_loop (players : List Player) (start_idx : Nat) :
    Nat → Nat → Nat
  | idx, 0 => idx
  | idx, fuel + 1 =>
    let idx' := (idx + 1) % players.length
    if ((players.get? idx').map Player.is_active).getD false then idx'
    else if idx' == start_idx then idx'
    else GameState.next_player_loop players start_idx idx' fuel

def GameState.next_player (gs : GameState) : GameState :=
  let idx := GameState.next_player_loop gs.players gs.current_player_idx
    gs.current_player_idx gs.players.length
  { gs with current_player_idx := idx }

/-- The emergency deck synthesized by `draw_card` when deck and discard are
both exhausted: Number cards only, `max 1 (v / 2)` copies of each value. -/
def mini_deck : List Card :=
  (List.range 13).flatMap fun value =>
    List.replicate (max 1 (value / 2)) (Card.number value)

def GameState.draw_card (shuffle : List Card → List Card) (gs : GameState) :
    Option (Card × GameState) :=
  let gs :=
    if gs.deck.isEmpty then
      if gs.discard_pile.isEmpty then gs
      else { gs with deck := shuffle gs.discard_pile, discard_pile := [] }
    else gs
  let gs := if gs.deck.isEmpty then { gs with deck := shuffle mini_deck } else gs
  match gs.deck.getLast? with
  | none => none
  | some c => some (c, { gs with deck := gs.deck.dropLast })

structure BustProbabilityStrategy where
  max_bust_prob : ℚ
  second_chance_aware : Bool
deriving DecidableEq, Repr

def BustProbabilityStrategy.should_hit (s : BustProbabilityStrategy)
    (p : Player) (gs : GameState) : Bool :=
  let my_numbers := p.get_number_values.dedup
  let total_deck_size := gs.deck.length + gs.discard_pile.length
  if total_deck_size == 0 then false
  else
    let total_number_cards : ℚ := ((List.range 13).sum : Nat)
    let bust_cards : ℚ := (my_numbers.sum : Nat)
    let bust_prob : ℚ :=
      if total_number_cards > 0 then bust_cards / total_number_cards else 0
    let effective_threshold : ℚ :=
      if s.second_chance_aware && p.has_second_chance then
        min 1 (s.max_bust_prob * 2)
      else s.max_bust_prob
    decide (bust_prob ≤ effective_threshold)

/-- Flag handling shared by the initial deal and hit resolution: a drawn
Action card sets the corresponding per-round flag. -/
def apply_action_flags (card : Card) (p : Player) : Player :=
  match card with
  | Card.action ActionType.secondChance => { p with has_second_chance := true }
  | Card.action ActionType.flipThree => { p with has_flip_three_active := true }
  | _ => p

def Flip7Game.deal_from (shuffle : List Card → List Card) :
    Nat → Nat → GameState → Option GameState
  | _, 0, gs => some gs
  | i, fuel + 1, gs =>
    match gs.draw_card shuffle with
    | none => none
    | some (card, gs') =>
      match gs'.players.get? i with
      | none => none
      | some p =>
        let p := { p with cards := p.cards ++ [card] }
        let p := apply_action_flags card p
        Flip7Game.deal_from shuffle (i + 1) fuel
          { gs' with players := gs'.players.set i p }

def Flip7Game.deal_initial_cards (shuffle : List Card → List Card)
    (gs : GameState) : Option GameState :=
  Flip7Game.deal_from shuffle 0 gs.players.length gs

/-- Outcome of the draw loop in `play_turn`: either the player busted
(the loop returned early, abandoning remaining draws) or the whole batch
completed. -/
inductive BatchResult where
  | busted (p : Player) (gs : GameState)
  | completed (p : Player) (gs : GameState)
deriving DecidableEq, Repr

def Flip7Game.hit_batch (shuffle : List Card → List Card) :
    Nat → Player → GameState → Option BatchResult
  | 0, p, gs => some (.completed p gs)
  | n + 1, p, gs =>
    match gs.draw_card shuffle with
    | none => none
    | some (card, gs') =>
      if p.would_bust card then
        if p.has_second_chance then
          Flip7Game.hit_batch shuffle n { p with has_second_chance := false }
            { gs' with discard_pile := gs'.discard_pile ++ [card] }
        else
          some (.busted
            { p with has_busted := true, is_active := false, round_score := 0 }
            gs')
      else
        let p := { p with cards := p.cards ++ [card] }
        let p := apply_action_flags card p
        Flip7Game.hit_batch shuffle n p gs'

def Flip7Game.play_turn (shuffle : List Card → List Card)
    (strat : Player → GameState → Bool) (p : Player) (gs : GameState) :
    Option (Player × GameState × Bool) :=
  if !p.is_active then some (p, gs, true)
  else if p.has_flip7 then
    some ({ p with round_score := p.calculate_score true, is_active := false },
      gs, false)
  else if 10 ≤ p.get_number_cards.length then
    some ({ p with round_score := p.calculate_score false, is_active := false },
      gs, true)
  else if !strat p gs then
    some ({ p with round_score := p.calculate_score false, is_active := false },
      gs, true)
  else
    let num_cards := if p.has_flip_three_active then 3 else 1
    match Flip7Game.hit_batch shuffle num_cards p gs with
    | none => none
    | some (.busted p' gs') => some (p', gs', true)
    | some (.completed p' gs') =>
      if p'.has_flip7 then
        some ({ p' with round_score := p'.calculate_score true, is_active := false }, gs', false)
      else
        let p' := if num_cards == 3 then { p' with has_flip_three_active := false }
          else p'
        some (p', gs', true)

def reset_player (p : Player) : Player :=
  { p with
      cards := []
      is_active := true
      has_busted := false
      has_second_chance := false
      has_flip_three_active := false
      round_score := 0 }

def Flip7Game.round_loop (shuffle : List Card → List Card)
    (strats : List (Player → GameState → Bool)) :
    Nat → GameState → Option GameState
  | 0, gs => some gs
  | fuel + 1, gs =>
    if gs.players.any Player.is_active then
      match gs.players.get? gs.current_player_idx,
          strats.get? gs.current_player_idx with
      | some p, some strat =>
        match Flip7Game.play_turn shuffle strat p gs with
        | none => none
        | some (p', gs', continues) =>
          let ps'' := gs'.players.set gs.current_player_idx p'
          let gs'' := { gs' with players := ps'' }
          if continues then
            Flip7Game.round_loop shuffle strats fuel gs''.next_player
          else some gs''
      | _, _ => none
    else some gs

/-- `play_round` before its final score-banking loop: reset all players,
deal one card each, then run turns (100-turn safety limit, as in the
source). -/
def Flip7Game.round_core (shuffle : List Card → List Card)
    (strats : List (Player → GameState → Bool)) (gs : GameState) :
    Option GameState :=
  let gs := { gs with players := gs.players.map reset_player }
  match Flip7Game.deal_initial_cards shuffle gs with
  | none => none
  | some gs => Flip7Game.round_loop shuffle strats 100 gs

/-- The final loop of `play_round`: add every player's round score to their
total score. -/
def bank_scores (gs : GameState) : GameState :=
  { gs with players := gs.players.map fun p =>
      { p with score := p.score + p.round_score } }

def Flip7Game.play_round (shuffle : List Card → List Card)
    (strats : List (Player → GameState → Bool)) (gs : GameState) :
    Option GameState :=
  (Flip7Game.round_core shuffle strats gs).map bank_scores

/-- The winner check of `play_game`: the for-loop with an early return
yields the first player in player order whose total score is at least
200. -/
def find_winner (players : List Player) : Option Player :=
  players.find? fun p => decide (200 ≤ p.score)

/-- Between rounds `play_game` advances the round number, rotates the
dealer, and sets the first actor of the next round. -/
def advance_round (gs : GameState) : GameState :=
  let n := gs.players.length
  let gs := { gs with
      round_number := gs.round_number + 1
      dealer_idx := (gs.dealer_idx + 1) % n }
  { gs with current_player_idx := (gs.dealer_idx + 1) % n }

def Flip7Game.play_game_loop (shuffle : List Card → List Card)
    (strats : List (Player → GameState → Bool)) :
    Nat → GameState → Option (Option Player)
  | 0, _ => some none
  | fuel + 1, gs =>
    match Flip7Game.play_round shuffle strats gs with
    | none => none
    | some gs1 =>
      match find_winner gs1.players with
      | some w => some (some w)
      | none => Flip7Game.play_game_loop shuffle strats fuel (advance_round gs1)

/-! Spec-side definitions, written from the wording of the claims (for
refinement comparisons against the source-derived definitions above). -/

/-- The scoring pipeline as the spec words it: sum all Number card values,
multiply the running total by each Multiply modifier's amount in hand order,
add each Add modifier's amount in hand order, then add a flat 15 when
`is_flip7`. -/
def spec_score_pipeline (cards : List Card) (is_flip7 : Bool) : Int :=
  let base : Int := ((cards.filterMap fun c =>
    match c with
    | Card.number v => some v
    | _ => none).sum : Nat)
  let after_mul := cards.foldl
    (fun t c =>
      match c with
      | Card.modifier ModifierType.multiply a => t * (a : Int)
      | _ => t) base
  let after_add := after_mul |> fun b => cards.foldl
    (fun t c =>
      match c with
      | Card.modifier ModifierType.add a => t + (a : Int)
      | _ => t) b
  if is_flip7 then after_add + 15 else after_add

/-- The deck-copy count as claim C4 words it: `max(2, ceil((playerCount+2)/3))`. -/
def claim_num_decks (num_players : Nat) : Nat :=
  max 2 (Nat.ceil (((num_players : ℚ) + 2) / 3))

/-- One base-deck copy as claim C4 describes it: one Number 0, `v` copies of
Number `v` for `v` in 1..12, three Add modifiers for each amount in
{2,4,6,8,10}, one Multiply(x2), and three Action cards of each kind. -/
def spec_base_copy : List Card :=
  (Card.number 0 :: (List.range 12).flatMap fun k =>
    List.replicate (k + 1) (Card.number (k + 1)))
  ++ ([2, 4, 6, 8, 10].flatMap fun a =>
    List.replicate 3 (Card.modifier ModifierType.add a))
  ++ [Card.modifier ModifierType.multiply 2]
  ++ ([ActionType.freeze, ActionType.flipThree, ActionType.secondChance].flatMap fun a =>
    List.replicate 3 (Card.action a))

/-- The bust estimate as the spec words it: sum of the distinct number values
held, divided by 78. -/
def spec_bust_prob (p : Player) : ℚ :=
  (p.get_number_values.dedup.sum : Nat) / 78

/-- The effective threshold as the spec words it: `min(1, 2p)` when
second-chance-aware and protected, else `p`. -/
def spec_effective_threshold (s : BustProbabilityStrategy) (p : Player) : ℚ :=
  if s.second_chance_aware && p.has_second_chance then
    min 1 (s.max_bust_prob * 2)
  else s.max_bust_prob

/-! Concrete fixtures used by the witness theorems. -/

def default_player : Player :=
  { id := ""
    name := ""
    cards := []
    score := 0
    round_score := 0
    is_active := true
    has_busted := false
    has_second_chance := false
    has_flip_three_active := false
    frozen_by := none }

def demo_gs (players : List Player) (deck : List Card) : GameState :=
  { players := players
    deck := deck
    discard_pile := []
    current_player_idx := 0
    dealer_idx := 0
    round_number := 1
    game_over := false
    winner := none }


/-- C2 fixture: a one-card deck whose top card duplicates the held 5. -/
def c2_gs : GameState := demo_gs [] [Card.number 5]

def c2_p_sc : Player :=
  { default_player with cards := [Card.number 5], has_second_chance := true }

def c2_p_nosc : Player := { default_player with cards := [Card.number 5] }

def c2_drawn : Card × GameState :=
  (GameState.draw_card id c2_gs).getD (Card.number 0, c2_gs)


/-- C3 fixtures: a player holding seven distinct numbers (Flip 7 at turn
start) and a player holding six who completes Flip 7 on the next draw. -/
def c3_p7 : Player :=
  { default_player with cards :=
      [Card.number 1, Card.number 2, Card.number 3, Card.number 4,
       Card.number 5, Card.number 6, Card.number 7] }

def c3_gs7 : GameState := demo_gs [c3_p7] []

def c3_p6 : Player :=
  { default_player with cards :=
      [Card.number 1, Card.number 2, Card.number 3, Card.number 4,
       Card.number 5, Card.number 6] }

def c3_gs6 : GameState := demo_gs [] [Card.number 7]

def c3_batch : BatchResult :=
  (Flip7Game.hit_batch id 1 c3_p6 c3_gs6).getD (.completed c3_p6 c3_gs6)

def c3_p6' : Player :=
  match c3_batch with
  | .completed p _ => p
  | .busted p _ => p

def c3_gs6' : GameState :=
  match c3_batch with
  | .completed _ gs => gs
  | .busted _ gs => gs

def c3_p7_banked : Player :=
  { c3_p7 with round_score := c3_p7.calculate_score true, is_active := false }

def c3_p6_banked : Player :=
  { c3_p6' with round_score := c3_p6'.calculate_score true, is_active := false }

def c3_round_end : GameState :=
  { c3_gs7 with players := c3_gs7.players.set 0 c3_p7_banked }

/-- C8 fixture: a player holding ten distinct Number cards. -/
def c8_p : Player :=
  { default_player with cards :=
      [Card.number 0, Card.number 1, Card.number 2, Card.number 3,
       Card.number 4, Card.number 5, Card.number 6, Card.number 7,
       Card.number 8, Card.number 9] }

def c8_p_stayed : Player :=
  { c8_p with round_score := c8_p.calculate_score false, is_active := false }

/-- C7 fixtures: a one-player always-stay match at 200 points (game A)
and at 0 points (game B). -/
def c7_strats : List (Player → GameState → Bool) := [fun _ _ => false]

def c7_p_a : Player := { default_player with score := 200 }

def c7_gs_a : GameState := demo_gs [c7_p_a] [Card.number 5]

def c7_core_a : GameState :=
  (Flip7Game.round_core id c7_strats c7_gs_a).getD (demo_gs [] [])

def c7_w : Player :=
  (find_winner (bank_scores c7_core_a).players).getD default_player

def c7_gs_b : GameState := demo_gs [default_player] [Card.number 5]

def c7_core_b : GameState :=
  (Flip7Game.round_core id c7_strats c7_gs_b).getD (demo_gs [] [])


/-- Projections of a batch outcome, used by the invariance lemmas. -/
def BatchResult.player : BatchResult → Player
  | .busted p _ => p
  | .completed p _ => p

def BatchResult.state : BatchResult → GameState
  | .busted _ gs => gs
  | .completed _ gs => gs

/-- C9/C10 fixtures: the banked player of demo game B and a freshly dealt
single-player state. -/
def c9_p' : Player := ((bank_scores c7_core_b).players.get? 0).getD default_player

def c10_gs_deal : GameState := demo_gs [default_player] [Card.number 5]

def c10_dealt : GameState :=
  (Flip7Game.deal_initial_cards id c10_gs_deal).getD (demo_gs [] [])

def c10_q : Player := (c10_dealt.players.get? 0).getD default_player

/-! Helper lemmas. -/

theorem filterMap_filter_eq {α β : Type} (q : α → Bool) (f : α → Option β)
    (h : ∀ a, q a = false → f a = none) :
    ∀ l : List α, (l.filter q).filterMap f = l.filterMap f := by
  intro l
  induction l with
  | nil => rfl
  | cons a l ih =>
    by_cases hq : q a
    · simp [List.filter_cons, hq, List.filterMap_cons, ih]
    · simp only [Bool.not_eq_true] at hq
      simp [List.filter_cons, hq, List.filterMap_cons, h a hq, ih]

theorem foldl_filter_eq {α β : Type} (q : α → Bool) (f : β → α → β)
    (h : ∀ b a, q a = false → f b a = b) :
    ∀ (l : List α) (b : β), (l.filter q).foldl f b = l.foldl f b := by
  intro l
  induction l with
  | nil => intro b; rfl
  | cons a l ih =>
    intro b
    by_cases hq : q a
    · simp [List.filter_cons, hq, List.foldl_cons, ih]
    · simp only [Bool.not_eq_true] at hq
      simp [List.filter_cons, hq, List.foldl_cons, h b a hq, ih]

/-- C1.  For every player hand and flag, `calculate_score` computes exactly the
spec pipeline (sum Number values, multiply by each Multiply amount in hand
order, add each Add amount in hand order, plus a flat 15 when the flag is
set); and the concrete hand {Number 7, Number 3, Add +4, Multiply x2} scores
24 without the bonus. -/
theorem c1_calculate_score_pipeline :
    (∀ (p : Player) (b : Bool),
      p.calculate_score b = spec_score_pipeline p.cards b) ∧
    Player.calculate_score
      { default_player with cards :=
          [Card.number 7, Card.number 3,
           Card.modifier ModifierType.add 4,
           Card.modifier ModifierType.multiply 2] } false = 24 := by
  constructor
  · intro p b
    have hnum : (p.cards.filter fun c => c.card_type == CardType.number).filterMap
        (fun c =>
          match c with
          | Card.number v => some v
          | _ => none)
        = p.cards.filterMap fun c =>
            match c with
            | Card.number v => some v
            | _ => none :=
      filterMap_filter_eq _ _
        (by intro c hc; cases c <;> simp_all [Card.card_type]) p.cards
    have hmul : ∀ t : Int, List.foldl
        (fun t c =>
          match c with
          | Card.modifier ModifierType.multiply v => t * (v : Int)
          | _ => t) t
        (p.cards.filter fun c => c.card_type == CardType.modifier)
        = List.foldl
          (fun t c =>
            match c with
            | Card.modifier ModifierType.multiply v => t * (v : Int)
            | _ => t) t p.cards :=
      fun t => foldl_filter_eq _ _
        (by intro b a hc; cases a with
            | modifier mt mv => simp_all [Card.card_type]
            | _ => rfl) p.cards t
    have hadd : ∀ t : Int, List.foldl
        (fun t c =>
          match c with
          | Card.modifier ModifierType.add v => t + (v : Int)
          | _ => t) t
        (p.cards.filter fun c => c.card_type == CardType.modifier)
        = List.foldl
          (fun t c =>
            match c with
            | Card.modifier ModifierType.add v => t + (v : Int)
            | _ => t) t p.cards :=
      fun t => foldl_filter_eq _ _
        (by intro b a hc; cases a with
            | modifier mt mv => simp_all [Card.card_type]
            | _ => rfl) p.cards t
    simp only [Player.calculate_score, spec_score_pipeline,
      Player.get_number_values, Player.get_number_cards,
      Player.get_modifier_cards]
    rw [hnum, hmul, hadd]
  · decide

theorem range_flatMap_const {α : Type} (l : List α) (k : Nat) :
    (List.range k).flatMap (fun _ => l) = (List.replicate k l).flatten := by
  simp [List.flatMap]

theorem flatten_replicate_perm {α : Type} {l₁ l₂ : List α} (h : l₁.Perm l₂)
    (k : Nat) :
    ((List.replicate k l₁).flatten).Perm ((List.replicate k l₂).flatten) := by
  induction k with
  | zero => simp
  | succ k ih =>
    simp only [List.replicate_succ, List.flatten_cons]
    exact h.append ih

/-- C4 counterexample.  At `playerCount = 5` the deck built by the code has
`max 2 ((5+2)/3) = 2` copies (208 cards), while the claim's formula
`max(2, ceil((5+2)/3)) = 3` would require 312 cards, so the claim's copy
count is wrong on the code. -/
theorem c4_deck_count_counterexample :
    (create_deck id 5).length = 208 ∧ claim_num_decks 5 = 3 ∧
    spec_base_copy.length = 104 ∧
    (create_deck id 5).length ≠ claim_num_decks 5 * spec_base_copy.length := by
  have h2 : claim_num_decks 5 = 3 := by
    unfold claim_num_decks
    have h : (Nat.ceil ((((5 : Nat) : ℚ) + 2) / 3) : Nat) = 3 := by
      rw [Nat.ceil_eq_iff (by norm_num)]
      norm_num
    rw [h]
    rfl
  refine ⟨by decide, h2, by decide, ?_⟩
  rw [h2]
  decide

/-- C4 (amended).  For every `shuffle` that permutes its input and every
player count, the deck built at match start is a permutation of exactly
`max 2 ((playerCount + 2) / 3)` (integer floor division, not ceiling)
copies of the base deck described by the claim: one Number 0, `v` copies of
Number `v` for `v` in 1..12, three Add modifiers of each amount in
{2,4,6,8,10}, one Multiply(x2), and three Action cards of each of the three
kinds. -/
theorem c4_create_deck_composition (shuffle : List Card → List Card)
    (hs : ∀ l, (shuffle l).Perm l) (num_players : Nat) :
    (create_deck shuffle num_players).Perm
      ((List.replicate (max 2 ((num_players + 2) / 3)) spec_base_copy).flatten) := by
  unfold create_deck
  refine (hs _).trans ?_
  rw [range_flatMap_const]
  exact flatten_replicate_perm (by decide) _

/-- Witness for C4: the amended composition theorem applied with the identity
shuffle at four players. -/
theorem c4_create_deck_composition_witness :
    (create_deck id 4).Perm
      ((List.replicate (max 2 ((4 + 2) / 3)) spec_base_copy).flatten) :=
  c4_create_deck_composition id (fun l => List.Perm.refl l) 4

/-- C6 counterexample.  With both deck and discard pile empty, `should_hit`
returns false even though the estimated bust probability (0 for an empty
hand) is at or below the threshold (0.15), so the claimed unconditional
"iff" is false at this consulted state. -/
theorem c6_empty_pile_counterexample :
    ¬ (BustProbabilityStrategy.should_hit ⟨15/100, false⟩ default_player
        (demo_gs [] []) = true ↔
       spec_bust_prob default_player ≤
         spec_effective_threshold ⟨15/100, false⟩ default_player) := by
  intro hiff
  have hspec : spec_bust_prob default_player ≤
      spec_effective_threshold ⟨15/100, false⟩ default_player := by
    norm_num [spec_bust_prob, spec_effective_threshold, default_player,
      Player.get_number_values, Player.get_number_cards]
  have hfalse : BustProbabilityStrategy.should_hit ⟨15/100, false⟩ default_player
      (demo_gs [] []) = false := by decide
  rw [hiff.mpr hspec] at hfalse
  exact Bool.noConfusion hfalse

/-- C6 (amended).  `should_hit` returns true iff deck and discard pile are
not both empty AND sum(distinct number values held) / 78 is at most the
effective threshold, which is min(1, 2p) when second-chance-aware and the
player holds Second Chance, and p otherwise.  (The code stays — returns
false — whenever deck plus discard is empty, regardless of the bust
estimate.) -/
theorem c6_should_hit_iff (s : BustProbabilityStrategy) (p : Player)
    (gs : GameState) :
    s.should_hit p gs = true ↔
      (gs.deck.length + gs.discard_pile.length ≠ 0 ∧
       spec_bust_prob p ≤ spec_effective_threshold s p) := by
  unfold BustProbabilityStrategy.should_hit spec_bust_prob spec_effective_threshold
  have h78 : (List.range 13).sum = 78 := by decide
  rw [h78]
  by_cases h : gs.deck.length + gs.discard_pile.length = 0
  · simp [h]
  · simp only [h, beq_iff_eq, if_neg, ne_eq, not_false_iff, true_and]
    rw [if_pos (by norm_num : ((78 : Nat) : ℚ) > 0)]
    simp only [decide_eq_true_eq]
    push_cast
    rfl

theorem pop_last_exists {l : List Card} (h : l ≠ []) :
    ∃ c, l.getLast? = some c ∧ l.dropLast ++ [c] = l :=
  ⟨l.getLast h, List.getLast?_eq_getLast_of_ne_nil h,
    List.dropLast_append_getLast h⟩

theorem perm_ne_nil {l₁ l₂ : List Card} (hp : l₁.Perm l₂) (h : l₂ ≠ []) :
    l₁ ≠ [] := by
  intro he
  rw [he] at hp
  exact h hp.symm.eq_nil

/-- C5.  `draw_card` is total for every game state (for any permuting
shuffle): it always yields a card.  When the deck is empty and the discard
pile is not, the draw comes from the shuffled discard pile and the discard
pile is cleared; when both are empty, the draw comes from the shuffled
emergency `mini_deck`, which is non-empty, holds Number cards only, and has
`max 1 (v / 2)` copies of each value `v` in 0..12. -/
theorem c5_draw_card_total (shuffle : List Card → List Card)
    (hs : ∀ l, (shuffle l).Perm l) (gs : GameState) :
    ∃ c gs', gs.draw_card shuffle = some (c, gs') ∧
      (gs.deck = [] → gs.discard_pile ≠ [] →
        gs'.discard_pile = [] ∧ (gs'.deck ++ [c]).Perm gs.discard_pile) ∧
      (gs.deck = [] → gs.discard_pile = [] →
        (gs'.deck ++ [c]).Perm mini_deck) ∧
      mini_deck ≠ [] ∧
      (∀ cd ∈ mini_deck, cd.card_type = CardType.number) ∧
      (∀ v, v < 13 → mini_deck.count (Card.number v) = max 1 (v / 2)) := by
  have hmini : mini_deck ≠ [] := by decide
  have hkinds : ∀ cd ∈ mini_deck, cd.card_type = CardType.number := by decide
  have hcounts : ∀ v, v < 13 → mini_deck.count (Card.number v) = max 1 (v / 2) := by decide
  unfold GameState.draw_card
  by_cases h1 : gs.deck.isEmpty
  · have hdeck : gs.deck = [] := List.isEmpty_iff.mp h1
    by_cases h2 : gs.discard_pile.isEmpty
    · have hdis : gs.discard_pile = [] := List.isEmpty_iff.mp h2
      have hp : (shuffle mini_deck).Perm mini_deck := hs _
      have hne : shuffle mini_deck ≠ [] := perm_ne_nil hp hmini
      obtain ⟨c, hc, hrest⟩ := pop_last_exists hne
      simp only [h1, h2, if_true, List.isEmpty_nil, hdis, hdeck]
      rw [hc]
      refine ⟨c, _, rfl, fun _ hd => absurd rfl hd, fun _ _ => ?_, hmini, hkinds, hcounts⟩
      simpa [hrest] using hp
    · have hdis : gs.discard_pile ≠ [] := by
        intro he
        rw [he] at h2
        exact h2 rfl
      have hp : (shuffle gs.discard_pile).Perm gs.discard_pile := hs _
      have hne : shuffle gs.discard_pile ≠ [] := perm_ne_nil hp hdis
      obtain ⟨c, hc, hrest⟩ := pop_last_exists hne
      have hne' : (shuffle gs.discard_pile).isEmpty = false := by
        cases hsd : shuffle gs.discard_pile with
        | nil => exact absurd hsd hne
        | cons a l => rfl
      simp only [h1, h2, if_true, Bool.false_eq_true, if_false, hne']
      rw [hc]
      refine ⟨c, _, rfl, fun _ _ => ⟨rfl, ?_⟩, fun _ hd => absurd hd hdis, hmini, hkinds, hcounts⟩
      simpa [hrest] using hp
  · have hne : gs.deck ≠ [] := by
      intro he
      rw [he] at h1
      exact h1 rfl
    obtain ⟨c, hc, hrest⟩ := pop_last_exists hne
    have h1' : gs.deck.isEmpty = false := by
      cases hsd : gs.deck with
      | nil => exact absurd hsd hne
      | cons a l => rfl
    simp only [h1', Bool.false_eq_true, if_false]
    rw [hc]
    exact ⟨c, _, rfl, fun hd => absurd hd hne, fun hd => absurd hd hne, hmini, hkinds, hcounts⟩

/-- Witness for C5: drawing from a state with empty deck and empty discard
pile still yields a card. -/
theorem c5_draw_card_total_witness :
    (GameState.draw_card id (demo_gs [] [])).isSome = true := by
  obtain ⟨c, gs', hc, -, -, -, -, -⟩ :=
    c5_draw_card_total id (fun l => List.Perm.refl l) (demo_gs [] [])
  rw [hc]
  rfl


/-- C2.  During a hit batch, drawing a Number card whose value the player
already holds: with Second Chance held, the batch continues on the remaining
draws with the flag consumed and the busting card appended to the discard
pile (hand and activity unchanged); without Second Chance, the player busts
(round score 0, `has_busted`, deactivated) and the remaining draws of the
batch are abandoned. -/
theorem c2_hit_batch_bust (shuffle : List Card → List Card) (n : Nat)
    (p : Player) (gs gs₁ : GameState) (card : Card) (v : Nat)
    (hdraw : gs.draw_card shuffle = some (card, gs₁))
    (hcard : card = Card.number v)
    (hdup : v ∈ p.get_number_values) :
    (p.has_second_chance = true →
      Flip7Game.hit_batch shuffle (n + 1) p gs =
        Flip7Game.hit_batch shuffle n { p with has_second_chance := false }
          { gs₁ with discard_pile := gs₁.discard_pile ++ [card] } ∧
      ({ p with has_second_chance := false } : Player).is_active = p.is_active ∧
      ({ p with has_second_chance := false } : Player).cards = p.cards) ∧
    (p.has_second_chance = false →
      Flip7Game.hit_batch shuffle (n + 1) p gs =
        some (.busted
          { p with has_busted := true, is_active := false, round_score := 0 }
          gs₁)) := by
  have hwb : p.would_bust card = true := by
    subst hcard
    simp [Player.would_bust]
    exact hdup
  constructor
  · intro hsc
    refine ⟨?_, rfl, rfl⟩
    simp only [Flip7Game.hit_batch, hdraw, hwb, hsc, if_true]
  · intro hsc
    simp only [Flip7Game.hit_batch, hdraw, hwb, hsc, if_true, Bool.false_eq_true,
      if_false]

/-- Witness for C2: with the concrete duplicate draw, the Second Chance
holder continues (flag consumed, card discarded) and the unprotected player
busts. -/
theorem c2_hit_batch_bust_witness :
    (Flip7Game.hit_batch id 1 c2_p_sc c2_gs =
      Flip7Game.hit_batch id 0 { c2_p_sc with has_second_chance := false }
        { c2_drawn.2 with discard_pile := c2_drawn.2.discard_pile ++ [c2_drawn.1] }) ∧
    Flip7Game.hit_batch id 1 c2_p_nosc c2_gs =
      some (.busted
        { c2_p_nosc with has_busted := true, is_active := false, round_score := 0 }
        c2_drawn.2) := by
  constructor
  · exact ((c2_hit_batch_bust id 0 c2_p_sc c2_gs c2_drawn.2 c2_drawn.1 5
      rfl rfl (by decide)).1 rfl).1
  · exact (c2_hit_batch_bust id 0 c2_p_nosc c2_gs c2_drawn.2 c2_drawn.1 5
      rfl rfl (by decide)).2 rfl


theorem filterMap_length_of_isSome {α β : Type} (f : α → Option β) :
    ∀ l : List α, (∀ a ∈ l, (f a).isSome) → (l.filterMap f).length = l.length := by
  intro l
  induction l with
  | nil => intro _; rfl
  | cons a l ih =>
    intro h
    cases hfa : f a with
    | none =>
      have := h a (List.mem_cons_self a l)
      rw [hfa] at this
      exact absurd this (by simp)
    | some b =>
      simp only [List.filterMap_cons, hfa, List.length_cons]
      rw [ih fun x hx => h x (List.mem_cons_of_mem a hx)]

theorem get_number_values_length (p : Player) :
    p.get_number_values.length = p.get_number_cards.length := by
  unfold Player.get_number_values
  apply filterMap_length_of_isSome
  intro c hc
  have h2 := (List.mem_filter.mp hc).2
  cases c <;> simp_all [Card.card_type]

theorem has_flip7_iff_of_nodup (p : Player) (h : p.get_number_values.Nodup) :
    p.has_flip7 = true ↔ p.get_number_cards.length = 7 := by
  unfold Player.has_flip7
  rw [beq_iff_eq, List.dedup_eq_self.mpr h, get_number_values_length]

/-- C8.  An active player who begins a turn holding ten or more Number cards
(on a duplicate-free hand, as every dealt hand is) is forced to stay for any
strategy, without the strategy being consulted: the round score becomes the
plain (no-bonus) score, the player is deactivated, and the turn reports that
the round continues. -/
theorem c8_force_stay_at_ten (shuffle : List Card → List Card)
    (strat : Player → GameState → Bool) (p : Player) (gs : GameState)
    (hactive : p.is_active = true)
    (hnodup : p.get_number_values.Nodup)
    (hten : 10 ≤ p.get_number_cards.length) :
    Flip7Game.play_turn shuffle strat p gs =
      some ({ p with round_score := p.calculate_score false, is_active := false },
        gs, true) := by
  have h7 : p.has_flip7 = false := by
    cases h7 : p.has_flip7 with
    | false => rfl
    | true =>
      have := (has_flip7_iff_of_nodup p hnodup).mp h7
      omega
  unfold Flip7Game.play_turn
  simp [hactive, h7, hten]

/-- Witness for C8: a ten-card player is forced to stay even under an
always-hit strategy. -/
theorem c8_force_stay_at_ten_witness :
    Flip7Game.play_turn id (fun _ _ => true) c8_p (demo_gs [c8_p] []) =
      some (c8_p_stayed, demo_gs [c8_p] [], true) :=
  c8_force_stay_at_ten id (fun _ _ => true) c8_p (demo_gs [c8_p] [])
    rfl (by decide) (by decide)

/-- C3.  Flip 7 ends the round immediately: (a) a player whose hand already
holds 7 distinct number values at turn start banks `calculate_score true`
(the +15-bonus score), is deactivated, and the turn reports the round over;
(b) the same happens when a completed hit batch produces such a hand;
(c) when a turn reports the round over, the round loop stops at once — no
further turn is taken by anyone; (d) the bonus-flagged score is exactly the
plain score plus 15. -/
theorem c3_flip7_ends_round (shuffle : List Card → List Card)
    (strat : Player → GameState → Bool)
    (strats : List (Player → GameState → Bool)) :
    (∀ (p : Player) (gs : GameState), p.is_active = true → p.has_flip7 = true →
      Flip7Game.play_turn shuffle strat p gs =
        some ({ p with round_score := p.calculate_score true, is_active := false },
          gs, false)) ∧
    (∀ (p p' : Player) (gs gs' : GameState), p.is_active = true →
      p.has_flip7 = false → p.get_number_cards.length < 10 →
      strat p gs = true →
      Flip7Game.hit_batch shuffle (if p.has_flip_three_active then 3 else 1) p gs
        = some (.completed p' gs') →
      p'.has_flip7 = true →
      Flip7Game.play_turn shuffle strat p gs =
        some ({ p' with round_score := p'.calculate_score true, is_active := false },
          gs', false)) ∧
    (∀ (fuel : Nat) (gs gs' : GameState) (p p' : Player),
      gs.players.any Player.is_active = true →
      gs.players.get? gs.current_player_idx = some p →
      strats.get? gs.current_player_idx = some strat →
      Flip7Game.play_turn shuffle strat p gs = some (p', gs', false) →
      Flip7Game.round_loop shuffle strats (fuel + 1) gs =
        some { gs' with players := gs'.players.set gs.current_player_idx p' }) ∧
    (∀ q : Player, q.calculate_score true = q.calculate_score false + 15) := by
  refine ⟨?_, ?_, ?_, ?_⟩
  · intro p gs hactive h7
    unfold Flip7Game.play_turn
    simp [hactive, h7]
  · intro p p' gs gs' hactive h7 hlen hstrat hbatch h7'
    unfold Flip7Game.play_turn
    simp [hactive, h7, Nat.not_le.mpr hlen, hstrat, hbatch, h7']
  · intro fuel gs gs' p p' hany hp hstrat hturn
    simp only [List.get?_eq_getElem?] at hp hstrat
    unfold Flip7Game.round_loop
    simp [hany, hp, hstrat, hturn]
  · intro q
    simp [Player.calculate_score]

/-- Witness for C3: the seven-distinct-value player ends the round at turn
start; the six-value player ends it after the batch draw completes the
seventh; the round loop halts immediately on the Flip 7 turn. -/
theorem c3_flip7_ends_round_witness :
    (Flip7Game.play_turn id (fun _ _ => true) c3_p7 c3_gs7 =
      some (c3_p7_banked, c3_gs7, false)) ∧
    (Flip7Game.play_turn id (fun _ _ => true) c3_p6 c3_gs6 =
      some (c3_p6_banked, c3_gs6', false)) ∧
    Flip7Game.round_loop id [fun _ _ => true] 1 c3_gs7 = some c3_round_end := by
  have h := c3_flip7_ends_round id (fun _ _ => true) [fun _ _ => true]
  refine ⟨h.1 c3_p7 c3_gs7 rfl (by decide), ?_, ?_⟩
  · exact h.2.1 c3_p6 c3_p6' c3_gs6 c3_gs6' rfl (by decide) (by decide) rfl rfl
      (by decide)
  · exact h.2.2.1 0 c3_gs7 c3_gs7 c3_p7 c3_p7_banked
      (by decide) rfl rfl (h.1 c3_p7 c3_gs7 rfl (by decide))

/-- C7.  The match controller: `play_round` ends by adding every player's
round score to their cumulative total; on the next `play_game` iteration,
if some player's total is at least 200 the winner returned is the first such
player in player order and the match terminates at once (no further round is
played), and otherwise the loop proceeds to another round on the advanced
state. -/
theorem c7_match_controller (shuffle : List Card → List Card)
    (strats : List (Player → GameState → Bool)) (fuel : Nat) (gs : GameState) :
    (∀ gs1, Flip7Game.round_core shuffle strats gs = some gs1 →
      Flip7Game.play_round shuffle strats gs = some (bank_scores gs1) ∧
      ∀ i, (bank_scores gs1).players.get? i =
        (gs1.players.get? i).map fun p => { p with score := p.score + p.round_score }) ∧
    (∀ gs1 w, Flip7Game.play_round shuffle strats gs = some gs1 →
      find_winner gs1.players = some w →
      Flip7Game.play_game_loop shuffle strats (fuel + 1) gs = some (some w)) ∧
    (∀ (players : List Player) (w : Player), find_winner players = some w →
      200 ≤ w.score ∧ ∃ i, players.get? i = some w ∧
        ∀ j q, j < i → players.get? j = some q → q.score < 200) ∧
    (∀ gs1, Flip7Game.play_round shuffle strats gs = some gs1 →
      find_winner gs1.players = none →
      Flip7Game.play_game_loop shuffle strats (fuel + 1) gs =
        Flip7Game.play_game_loop shuffle strats fuel (advance_round gs1)) := by
  refine ⟨?_, ?_, ?_, ?_⟩
  · intro gs1 h
    constructor
    · unfold Flip7Game.play_round
      rw [h]
      rfl
    · intro i
      simp [bank_scores, List.get?_eq_getElem?, List.getElem?_map]
  · intro gs1 w h hw
    simp only [Flip7Game.play_game_loop, h, hw]
  · intro players
    induction players with
    | nil => intro w h; simp [find_winner] at h
    | cons p ps ih =>
      intro w h
      rw [find_winner, List.find?_cons] at h
      cases hd : decide (200 ≤ p.score) with
      | true =>
        rw [hd] at h
        obtain rfl : p = w := Option.some.inj h
        refine ⟨of_decide_eq_true hd, 0, rfl, ?_⟩
        intro j q hj _
        exact absurd hj (Nat.not_lt_zero j)
      | false =>
        rw [hd] at h
        obtain ⟨hw, i, hi, hfirst⟩ := ih w h
        refine ⟨hw, i + 1, by simpa using hi, ?_⟩
        intro j q hj hq
        cases j with
        | zero =>
          have hq' : p = q := by simpa using hq
          rw [← hq']
          have := of_decide_eq_false hd
          omega
        | succ j =>
          exact hfirst j q (by omega) (by simpa using hq)
  · intro gs1 h hw
    simp only [Flip7Game.play_game_loop, h, hw]

/-- Witness for C7: the 200-point always-stay player wins right after the
round's scores are banked, while the 0-point game goes on to another
round. -/
theorem c7_match_controller_witness :
    Flip7Game.play_round id c7_strats c7_gs_a = some (bank_scores c7_core_a) ∧
    Flip7Game.play_game_loop id c7_strats 1 c7_gs_a = some (some c7_w) ∧
    200 ≤ c7_w.score ∧
    Flip7Game.play_game_loop id c7_strats 1 c7_gs_b =
      Flip7Game.play_game_loop id c7_strats 0 (advance_round (bank_scores c7_core_b)) := by
  have ha := c7_match_controller id c7_strats 0 c7_gs_a
  have hb := c7_match_controller id c7_strats 0 c7_gs_b
  have h1 : Flip7Game.play_round id c7_strats c7_gs_a = some (bank_scores c7_core_a) :=
    (ha.1 c7_core_a rfl).1
  have h1b : Flip7Game.play_round id c7_strats c7_gs_b = some (bank_scores c7_core_b) :=
    (hb.1 c7_core_b rfl).1
  refine ⟨h1, ha.2.1 (bank_scores c7_core_a) c7_w h1 rfl, ?_, ?_⟩
  · exact (ha.2.2.1 (bank_scores c7_core_a).players c7_w rfl).1
  · exact hb.2.2.2 (bank_scores c7_core_b) h1b rfl

theorem foldl_preserve {α : Type} (P : Int → Prop) (f : Int → α → Int)
    (hf : ∀ t a, P t → P (f t a)) :
    ∀ (l : List α) (t : Int), P t → P (l.foldl f t) := by
  intro l
  induction l with
  | nil => intro t ht; exact ht
  | cons a l ih => intro t ht; exact ih (f t a) (hf t a ht)

theorem calculate_score_nonneg (p : Player) (b : Bool) :
    0 ≤ p.calculate_score b := by
  unfold Player.calculate_score
  have h0 : (0 : Int) ≤ ((p.get_number_values.sum : Nat) : Int) :=
    Int.natCast_nonneg _
  have h1 := foldl_preserve (fun t => 0 ≤ t)
    (fun t c =>
      match c with
      | Card.modifier ModifierType.multiply v => t * (v : Int)
      | _ => t)
    (by
      intro t c ht
      cases c with
      | modifier mt mv =>
        cases mt with
        | multiply => exact mul_nonneg ht (Int.natCast_nonneg _)
        | add => exact ht
      | _ => exact ht)
    p.get_modifier_cards _ h0
  have h2 := foldl_preserve (fun t => 0 ≤ t)
    (fun t c =>
      match c with
      | Card.modifier ModifierType.add v => t + (v : Int)
      | _ => t)
    (by
      intro t c ht
      cases c with
      | modifier mt mv =>
        cases mt with
        | add => exact add_nonneg ht (Int.natCast_nonneg _)
        | multiply => exact ht
      | _ => exact ht)
    p.get_modifier_cards _ h1
  cases b with
  | false => exact h2
  | true => simp only [if_true]; omega

theorem draw_card_players (shuffle : List Card → List Card) {gs : GameState}
    {c : Card} {gs' : GameState} (h : gs.draw_card shuffle = some (c, gs')) :
    gs'.players = gs.players := by
  unfold GameState.draw_card at h
  simp only [] at h
  repeat' split at h
  all_goals try exact Option.noConfusion h
  all_goals
    injection h with h
  all_goals
    rw [Prod.mk.injEq] at h
  all_goals
    obtain ⟨-, h2⟩ := h
  all_goals
    rw [← h2]

theorem apply_action_flags_fields (card : Card) (p : Player) :
    (apply_action_flags card p).cards = p.cards ∧
    (apply_action_flags card p).score = p.score ∧
    (apply_action_flags card p).round_score = p.round_score ∧
    (apply_action_flags card p).is_active = p.is_active := by
  unfold apply_action_flags
  split <;> exact ⟨rfl, rfl, rfl, rfl⟩

theorem get_number_values_congr {p q : Player} (h : p.cards = q.cards) :
    p.get_number_values = q.get_number_values := by
  unfold Player.get_number_values Player.get_number_cards
  rw [h]

theorem get_number_values_append (p : Player) (c : Card) :
    Player.get_number_values { p with cards := p.cards ++ [c] } =
      p.get_number_values ++
        (match c with
          | Card.number v => [v]
          | _ => []) := by
  unfold Player.get_number_values Player.get_number_cards
  simp only [List.filter_append, List.filterMap_append]
  cases c <;> simp [Card.card_type]


theorem hit_batch_props (shuffle : List Card → List Card) :
    ∀ (n : Nat) (p : Player) (gs : GameState) (r : BatchResult),
    Flip7Game.hit_batch shuffle n p gs = some r →
    r.player.score = p.score ∧
    (0 ≤ p.round_score → 0 ≤ r.player.round_score) ∧
    (p.get_number_values.Nodup → r.player.get_number_values.Nodup) := by
  intro n
  induction n with
  | zero =>
    intro p gs r h
    rw [Flip7Game.hit_batch] at h
    injection h with h
    rw [← h]
    exact ⟨rfl, fun hr => hr, fun hn => hn⟩
  | succ n ih =>
    intro p gs r h
    rw [Flip7Game.hit_batch] at h
    cases hdraw : gs.draw_card shuffle with
    | none => rw [hdraw] at h; exact Option.noConfusion h
    | some cg =>
      obtain ⟨card, gs₁⟩ := cg
      rw [hdraw] at h
      simp only [] at h
      by_cases hwb : p.would_bust card = true
      · rw [if_pos hwb] at h
        by_cases hsc : p.has_second_chance = true
        · rw [if_pos hsc] at h
          have hrec := ih { p with has_second_chance := false } _ _ h
          exact hrec
        · rw [if_neg hsc] at h
          injection h with h
          rw [← h]
          refine ⟨rfl, fun _ => le_refl 0, fun hn => hn⟩
      · rw [if_neg hwb] at h
        have hrec := ih (apply_action_flags card { p with cards := p.cards ++ [card] }) _ _ h
        obtain ⟨hflags_cards, hflags_score, hflags_round, -⟩ :=
          apply_action_flags_fields card { p with cards := p.cards ++ [card] }
        refine ⟨?_, ?_, ?_⟩
        · rw [hrec.1, hflags_score]
        · intro h0
          exact hrec.2.1 (by rw [hflags_round]; exact h0)
        · intro hn
          apply hrec.2.2
          rw [get_number_values_congr hflags_cards, get_number_values_append]
          cases hc : card with
          | number v =>
            have hvnotin : v ∉ p.get_number_values := by
              rw [hc] at hwb
              unfold Player.would_bust at hwb
              simpa using hwb
            rw [List.nodup_append]
            refine ⟨hn, List.nodup_singleton v, ?_⟩
            intro a ha hb
            simp only [List.mem_singleton] at hb
            subst hb
            exact hvnotin ha
          | action a => simpa using hn
          | modifier mt mv => simpa using hn

theorem play_turn_props (shuffle : List Card → List Card)
    (strat : Player → GameState → Bool) (p : Player) (gs : GameState)
    (p' : Player) (gs' : GameState) (cont : Bool)
    (h : Flip7Game.play_turn shuffle strat p gs = some (p', gs', cont)) :
    p'.score = p.score ∧
    (0 ≤ p.round_score → 0 ≤ p'.round_score) ∧
    (p.get_number_values.Nodup → p'.get_number_values.Nodup) := by
  unfold Flip7Game.play_turn at h
  split at h
  · simp only [Option.some.injEq, Prod.mk.injEq] at h
    obtain ⟨h1, -, -⟩ := h
    rw [← h1]
    exact ⟨rfl, fun x => x, fun x => x⟩
  · split at h
    · simp only [Option.some.injEq, Prod.mk.injEq] at h
      obtain ⟨h1, -, -⟩ := h
      rw [← h1]
      exact ⟨rfl, fun _ => calculate_score_nonneg p true, fun x => x⟩
    · split at h
      · simp only [Option.some.injEq, Prod.mk.injEq] at h
        obtain ⟨h1, -, -⟩ := h
        rw [← h1]
        exact ⟨rfl, fun _ => calculate_score_nonneg p false, fun x => x⟩
      · split at h
        · simp only [Option.some.injEq, Prod.mk.injEq] at h
          obtain ⟨h1, -, -⟩ := h
          rw [← h1]
          exact ⟨rfl, fun _ => calculate_score_nonneg p false, fun x => x⟩
        · simp only [] at h
          split at h
          · exact Option.noConfusion h
          · rename_i pb gsb heq
            have hprops := hit_batch_props shuffle _ p gs _ heq
            simp only [Option.some.injEq, Prod.mk.injEq] at h
            obtain ⟨h1, -, -⟩ := h
            rw [← h1]
            exact hprops
          · rename_i pc gsc heq
            have hprops := hit_batch_props shuffle _ p gs _ heq
            split at h
            · simp only [Option.some.injEq, Prod.mk.injEq] at h
              obtain ⟨h1, -, -⟩ := h
              rw [← h1]
              exact ⟨hprops.1, fun _ => calculate_score_nonneg pc true, hprops.2.2⟩
            · simp only [Option.some.injEq, Prod.mk.injEq] at h
              obtain ⟨h1, -, -⟩ := h
              rw [← h1]
              split
              · exact hprops
              · exact hprops


theorem hit_batch_state_players (shuffle : List Card → List Card) :
    ∀ (n : Nat) (p : Player) (gs : GameState) (r : BatchResult),
    Flip7Game.hit_batch shuffle n p gs = some r →
    r.state.players = gs.players := by
  intro n
  induction n with
  | zero =>
    intro p gs r h
    rw [Flip7Game.hit_batch] at h
    injection h with h
    rw [← h]
    rfl
  | succ n ih =>
    intro p gs r h
    rw [Flip7Game.hit_batch] at h
    cases hdraw : gs.draw_card shuffle with
    | none => rw [hdraw] at h; exact Option.noConfusion h
    | some cg =>
      obtain ⟨card, gs₁⟩ := cg
      rw [hdraw] at h
      simp only [] at h
      have hpl := draw_card_players shuffle hdraw
      by_cases hwb : p.would_bust card = true
      · rw [if_pos hwb] at h
        by_cases hsc : p.has_second_chance = true
        · rw [if_pos hsc] at h
          rw [ih _ _ _ h]
          exact hpl
        · rw [if_neg hsc] at h
          injection h with h
          rw [← h]
          exact hpl
      · rw [if_neg hwb] at h
        rw [ih _ _ _ h]
        exact hpl

theorem play_turn_state_players (shuffle : List Card → List Card)
    (strat : Player → GameState → Bool) (p : Player) (gs : GameState)
    (p' : Player) (gs' : GameState) (cont : Bool)
    (h : Flip7Game.play_turn shuffle strat p gs = some (p', gs', cont)) :
    gs'.players = gs.players := by
  unfold Flip7Game.play_turn at h
  split at h
  · simp only [Option.some.injEq, Prod.mk.injEq] at h
    obtain ⟨-, h2, -⟩ := h
    rw [← h2]
  · split at h
    · simp only [Option.some.injEq, Prod.mk.injEq] at h
      obtain ⟨-, h2, -⟩ := h
      rw [← h2]
    · split at h
      · simp only [Option.some.injEq, Prod.mk.injEq] at h
        obtain ⟨-, h2, -⟩ := h
        rw [← h2]
      · split at h
        · simp only [Option.some.injEq, Prod.mk.injEq] at h
          obtain ⟨-, h2, -⟩ := h
          rw [← h2]
        · simp only [] at h
          split at h
          · exact Option.noConfusion h
          · rename_i pb gsb heq
            have hst := hit_batch_state_players shuffle _ p gs _ heq
            simp only [Option.some.injEq, Prod.mk.injEq] at h
            obtain ⟨-, h2, -⟩ := h
            rw [← h2]
            exact hst
          · rename_i pc gsc heq
            have hst := hit_batch_state_players shuffle _ p gs _ heq
            split at h
            · simp only [Option.some.injEq, Prod.mk.injEq] at h
              obtain ⟨-, h2, -⟩ := h
              rw [← h2]
              exact hst
            · simp only [Option.some.injEq, Prod.mk.injEq] at h
              obtain ⟨-, h2, -⟩ := h
              rw [← h2]
              exact hst

theorem hand_le_one_nodup (q : Player) (h : q.cards = [] ∨ ∃ c, q.cards = [c]) :
    q.get_number_values.Nodup := by
  unfold Player.get_number_values Player.get_number_cards
  rcases h with h | ⟨c, h⟩ <;> rw [h]
  · simp
  · cases c <;> simp [Card.card_type]

theorem deal_from_invariants (shuffle : List Card → List Card) :
    ∀ (fuel i : Nat) (gs gs' : GameState),
    Flip7Game.deal_from shuffle i fuel gs = some gs' →
    gs'.players.length = gs.players.length ∧
    (∀ j, (gs'.players.get? j).map Player.score =
      (gs.players.get? j).map Player.score) ∧
    (∀ j, (gs'.players.get? j).map Player.round_score =
      (gs.players.get? j).map Player.round_score) ∧
    ((∀ j q, gs.players.get? j = some q → i ≤ j → q.cards = []) →
     (∀ j q, gs.players.get? j = some q → j < i → q.get_number_values.Nodup) →
     ∀ j q, gs'.players.get? j = some q → q.get_number_values.Nodup) := by
  intro fuel
  induction fuel with
  | zero =>
    intro i gs gs' h
    rw [Flip7Game.deal_from] at h
    injection h with h
    subst h
    refine ⟨rfl, fun _ => rfl, fun _ => rfl, ?_⟩
    intro h1 h2 j q hq
    by_cases hj : j < i
    · exact h2 j q hq hj
    · refine hand_le_one_nodup q (Or.inl (h1 j q hq ?_))
      omega
  | succ fuel ih =>
    intro i gs gs' h
    rw [Flip7Game.deal_from] at h
    cases hdraw : gs.draw_card shuffle with
    | none => rw [hdraw] at h; exact Option.noConfusion h
    | some cg =>
      obtain ⟨card, gs₁⟩ := cg
      rw [hdraw] at h
      simp only [] at h
      have hpl := draw_card_players shuffle hdraw
      cases hget : gs₁.players.get? i with
      | none => rw [hget] at h; exact Option.noConfusion h
      | some p =>
        rw [hget] at h
        simp only [] at h
        have hrec := ih (i + 1) _ _ h
        have hfields := apply_action_flags_fields card { p with cards := p.cards ++ [card] }
        have hsetlen : (gs₁.players.set i
            (apply_action_flags card { p with cards := p.cards ++ [card] })).length
            = gs.players.length := by
          rw [List.length_set, hpl]
        have hget0 : gs.players.get? i = some p := by rw [← hpl]; exact hget
        have hsc : ∀ j, ((gs₁.players.set i
            (apply_action_flags card { p with cards := p.cards ++ [card] })).get? j).map
              Player.score = (gs.players.get? j).map Player.score := by
          intro j
          by_cases hj : i = j
          · subst hj
            rw [List.get?_set_eq, hget, hget0]
            simp only [Option.map_some, Option.map]
            rw [hfields.2.1]
          · rw [List.get?_set_ne _ _ hj, hpl]
        have hrs : ∀ j, ((gs₁.players.set i
            (apply_action_flags card { p with cards := p.cards ++ [card] })).get? j).map
              Player.round_score = (gs.players.get? j).map Player.round_score := by
          intro j
          by_cases hj : i = j
          · subst hj
            rw [List.get?_set_eq, hget, hget0]
            simp only [Option.map_some, Option.map]
            rw [hfields.2.2.1]
          · rw [List.get?_set_ne _ _ hj, hpl]
        refine ⟨?_, ?_, ?_, ?_⟩
        · rw [hrec.1]
          exact hsetlen
        · intro j
          rw [hrec.2.1 j, hsc j]
        · intro j
          rw [hrec.2.2.1 j, hrs j]
        · intro h1 h2
          apply hrec.2.2.2
          · intro j q hq hij
            rw [List.get?_set_ne _ _ (by omega), hpl] at hq
            exact h1 j q hq (by omega)
          · intro j q hq hij
            by_cases hj : i = j
            · subst hj
              rw [List.get?_set_eq, hget] at hq
              simp only [Option.map_some, Option.map, Option.some.injEq] at hq
              subst hq
              refine hand_le_one_nodup _ (Or.inr ⟨card, ?_⟩)
              rw [hfields.1]
              rw [h1 i p hget0 (le_refl i)]
              rfl
            · rw [List.get?_set_ne _ _ hj, hpl] at hq
              exact h2 j q hq (by omega)

theorem next_player_players (gs : GameState) :
    gs.next_player.players = gs.players := rfl

theorem round_loop_props (shuffle : List Card → List Card)
    (strats : List (Player → GameState → Bool)) :
    ∀ (fuel : Nat) (gs gs' : GameState),
    Flip7Game.round_loop shuffle strats fuel gs = some gs' →
    (∀ q ∈ gs.players, 0 ≤ q.round_score) →
    gs'.players.length = gs.players.length ∧
    (∀ j, (gs'.players.get? j).map Player.score =
      (gs.players.get? j).map Player.score) ∧
    (∀ q ∈ gs'.players, 0 ≤ q.round_score) := by
  intro fuel
  induction fuel with
  | zero =>
    intro gs gs' h hrs
    rw [Flip7Game.round_loop] at h
    injection h with h
    subst h
    exact ⟨rfl, fun _ => rfl, hrs⟩
  | succ fuel ih =>
    intro gs gs' h hrs
    rw [Flip7Game.round_loop] at h
    split at h
    · split at h
      · rename_i p strat hgetp hgets
        cases hturn : Flip7Game.play_turn shuffle strat p gs with
        | none => rw [hturn] at h; exact Option.noConfusion h
        | some res =>
          obtain ⟨p', gs'', cont⟩ := res
          rw [hturn] at h
          simp only [] at h
          have hprops := play_turn_props shuffle strat p gs p' gs'' cont hturn
          have hstpl := play_turn_state_players shuffle strat p gs p' gs'' cont hturn
          have hpmem : p ∈ gs.players := List.get?_mem hgetp
          have hrs' : 0 ≤ p'.round_score := hprops.2.1 (hrs p hpmem)
          have hmidlen : (gs''.players.set gs.current_player_idx p').length
              = gs.players.length := by
            rw [List.length_set, hstpl]
          have hmidsc : ∀ j, ((gs''.players.set gs.current_player_idx p').get? j).map
              Player.score = (gs.players.get? j).map Player.score := by
            intro j
            by_cases hj : gs.current_player_idx = j
            · subst hj
              rw [List.get?_set_eq, hstpl, hgetp]
              simp only [Option.map_some, Option.map]
              rw [hprops.1]
            · rw [List.get?_set_ne _ _ hj, hstpl]
          have hmidrs : ∀ q ∈ gs''.players.set gs.current_player_idx p',
              0 ≤ q.round_score := by
            intro q hq
            rcases List.mem_or_eq_of_mem_set hq with hq | rfl
            · rw [hstpl] at hq
              exact hrs q hq
            · exact hrs'
          split at h
          · have hrec := ih _ _ h (by rw [next_player_players]; exact hmidrs)
            rw [next_player_players] at hrec
            refine ⟨?_, ?_, hrec.2.2⟩
            · rw [hrec.1]
              exact hmidlen
            · intro j
              rw [hrec.2.1 j, hmidsc j]
          · injection h with h
            subst h
            exact ⟨hmidlen, hmidsc, hmidrs⟩
      · exact Option.noConfusion h
    · injection h with h
      subst h
      exact ⟨rfl, fun _ => rfl, hrs⟩

/-- C9.  A player's cumulative total is monotonically non-decreasing across
rounds: every `play_round` leaves each player's total at least what it was,
because the banked round score is always non-negative (0 at reset and on
bust, otherwise a `calculate_score` value, which is non-negative on every
hand) and the final banking loop only adds it to the total. -/
theorem c9_total_score_monotone (shuffle : List Card → List Card)
    (strats : List (Player → GameState → Bool)) (gs gs' : GameState)
    (h : Flip7Game.play_round shuffle strats gs = some gs') (i : Nat)
    (p p' : Player) (hp : gs.players.get? i = some p)
    (hp' : gs'.players.get? i = some p') : p.score ≤ p'.score := by
  unfold Flip7Game.play_round at h
  cases hcore : Flip7Game.round_core shuffle strats gs with
  | none => rw [hcore] at h; exact Option.noConfusion h
  | some mid =>
    rw [hcore] at h
    injection h with h
    unfold Flip7Game.round_core at hcore
    simp only [] at hcore
    cases hdeal : Flip7Game.deal_initial_cards shuffle
        { gs with players := gs.players.map reset_player } with
    | none => rw [hdeal] at hcore; exact Option.noConfusion hcore
    | some gs₁ =>
      rw [hdeal] at hcore
      unfold Flip7Game.deal_initial_cards at hdeal
      have hdealinv := deal_from_invariants shuffle _ 0 _ _ hdeal
      have hrs₀ : ∀ q ∈ ({ gs with players := gs.players.map reset_player } :
          GameState).players, 0 ≤ q.round_score := by
        intro q hq
        obtain ⟨a, -, rfl⟩ := List.mem_map.mp hq
        exact le_refl 0
      have hsc₀ : ∀ j, (({ gs with players := gs.players.map reset_player } :
          GameState).players.get? j).map Player.score =
          (gs.players.get? j).map Player.score := by
        intro j
        rw [show ({ gs with players := gs.players.map reset_player } :
          GameState).players = gs.players.map reset_player from rfl, List.get?_map]
        cases gs.players.get? j <;> rfl
      have hrs₁ : ∀ q ∈ gs₁.players, 0 ≤ q.round_score := by
        intro q hq
        obtain ⟨j, hj⟩ := List.mem_iff_get?.mp hq
        have := hdealinv.2.2.1 j
        rw [hj] at this
        cases hg0 : ({ gs with players := gs.players.map reset_player } :
            GameState).players.get? j with
        | none => rw [hg0] at this; exact Option.noConfusion this
        | some q0 =>
          rw [hg0] at this
          simp only [Option.map_some, Option.map, Option.some.injEq] at this
          rw [this]
          exact hrs₀ q0 (List.get?_mem hg0)
      have hloopinv := round_loop_props shuffle strats 100 gs₁ mid hcore hrs₁
      rw [← h] at hp'
      rw [show (bank_scores mid).players =
        mid.players.map (fun q => { q with score := q.score + q.round_score })
        from rfl, List.get?_map] at hp'
      cases hq : mid.players.get? i with
      | none => rw [hq] at hp'; exact Option.noConfusion hp'
      | some q =>
        rw [hq] at hp'
        simp only [Option.map_some, Option.map, Option.some.injEq] at hp'
        have hscore : q.score = p.score := by
          have h1 := hloopinv.2.1 i
          have h2 := hdealinv.2.1 i
          have h3 := hsc₀ i
          rw [hq] at h1
          rw [hp] at h3
          rw [h2, h3] at h1
          simp only [Option.map_some, Option.map, Option.some.injEq] at h1
          exact h1
        have hqrs : 0 ≤ q.round_score := hloopinv.2.2 q (List.get?_mem hq)
        rw [← hp']
        simp only []
        omega





/-- Witness for C9: the demo player's total does not decrease over the demo
round. -/
theorem c9_total_score_monotone_witness : default_player.score ≤ c9_p'.score :=
  c9_total_score_monotone id c7_strats c7_gs_b (bank_scores c7_core_b) rfl 0
    default_player c9_p' rfl rfl

/-- C10.  Reachable hands never hold two Number cards of one value: the
initial deal of one card each onto empty hands yields duplicate-free number
values; every turn preserves duplicate-freeness (a drawn duplicate is never
appended — it busts the player or is discarded via Second Chance); and on a
duplicate-free hand the count of distinct number values equals the count of
Number cards, so `has_flip7` is equivalent to holding exactly 7 Number
cards. -/
theorem c10_hand_nodup_invariant :
    (∀ (shuffle : List Card → List Card) (gs gs' : GameState),
      (∀ q ∈ gs.players, q.cards = []) →
      Flip7Game.deal_initial_cards shuffle gs = some gs' →
      ∀ q ∈ gs'.players, q.get_number_values.Nodup) ∧
    (∀ (shuffle : List Card → List Card) (strat : Player → GameState → Bool)
      (p : Player) (gs : GameState) (p' : Player) (gs' : GameState) (cont : Bool),
      Flip7Game.play_turn shuffle strat p gs = some (p', gs', cont) →
      p.get_number_values.Nodup → p'.get_number_values.Nodup) ∧
    (∀ p : Player, p.get_number_values.Nodup →
      p.get_number_values.dedup.length = p.get_number_cards.length ∧
      (p.has_flip7 = true ↔ p.get_number_cards.length = 7)) := by
  refine ⟨?_, ?_, ?_⟩
  · intro shuffle gs gs' hempty hdeal q hq
    unfold Flip7Game.deal_initial_cards at hdeal
    have hinv := (deal_from_invariants shuffle _ 0 _ _ hdeal).2.2.2
    obtain ⟨j, hj⟩ := List.mem_iff_get?.mp hq
    exact hinv (fun j q hq _ => hempty q (List.get?_mem hq))
      (fun j q _ hj => absurd hj (Nat.not_lt_zero j)) j q hj
  · intro shuffle strat p gs p' gs' cont h hn
    exact (play_turn_props shuffle strat p gs p' gs' cont h).2.2 hn
  · intro p hn
    constructor
    · rw [List.dedup_eq_self.mpr hn, get_number_values_length]
    · exact has_flip7_iff_of_nodup p hn

/-- Witness for C10: a dealt hand is duplicate-free, a hand after a hit
batch is duplicate-free, and on the seven-value hand `has_flip7` matches the
seven-card count. -/
theorem c10_hand_nodup_invariant_witness :
    c10_q.get_number_values.Nodup ∧
    c3_p6_banked.get_number_values.Nodup ∧
    (c3_p7.has_flip7 = true ↔ c3_p7.get_number_cards.length = 7) := by
  have h := c10_hand_nodup_invariant
  refine ⟨?_, ?_, ?_⟩
  · exact h.1 id c10_gs_deal c10_dealt (by decide) rfl c10_q (by decide)
  · exact h.2.1 id (fun _ _ => true) c3_p6 c3_gs6 c3_p6_banked c3_gs6' false rfl
      (by decide)
  · exact (h.2.2 c3_p7 (by decide)).2
